import Mathlib

/-!
Shallow embedding of the fsp client library (package fsp: packet.go,
session.go, file.go, fsp.go) together with theorems settling the
specification claims about it.

Conventions of the embedding:
* Go machine integers are modelled as Nat; where Go performs a narrowing
  conversion or wrapping arithmetic the truncation is written explicitly
  (% 256, % 65536, % 2 ^ 32).
* Go byte slices are List Nat (each entry a byte value).
* Fallible operations, including Go runtime panics such as index out of
  range or division by zero, are modelled with Except String.
* Loops are modelled either by structural recursion or with an explicit
  fuel argument; theorems about fuelled loops quantify over the fuel, so
  they cover every terminating run of the Go loop.
-/

deriving instance DecidableEq for Except

namespace FSP

/-- Success test for Except results. -/
def exceptOk {ε α : Type} : Except ε α → Bool
  | .ok _ => true
  | .error _ => false

/-- Success projection for Except results. -/
def exceptSome {ε α : Type} : Except ε α → Option α
  | .ok a => some a
  | .error _ => none

-- FSP protocol v2 command codes (packet.go).
def FSPCommandVersion : Nat := 0x10
def FSPCommandInfo : Nat := 0x11
def FSPCommandErr : Nat := 0x40
def FSPCommandGetDir : Nat := 0x41
def FSPCommandGetFile : Nat := 0x42
def FSPCommandUpload : Nat := 0x43
def FSPCommandInstall : Nat := 0x44
def FSPCommandGetPro : Nat := 0x47
def FSPCommandGrabFile : Nat := 0x4B
def FSPCommandRename : Nat := 0x4E

-- FSP packet size constants (packet.go).
def FSPHSzie : Nat := 12
def FSPSpace : Nat := 14708
def FSPMaxPacket : Nat := FSPHSzie + FSPSpace
def FSPProBytes : Nat := 1

-- Byte offsets of fields in the FSP v2 header (packet.go).
def fspOffsetCmd : Nat := 0
def fspOffsetSum : Nat := 1
def fspOffsetKey : Nat := 2
def fspOffsetSeq : Nat := 4
def fspOffsetLen : Nat := 6
def fspOffsetPos : Nat := 8

/-- Big endian 16 bit read, binary.BigEndian.Uint16. -/
def be16 (hi lo : Nat) : Nat := hi * 256 + lo

/-- Big endian 32 bit read, binary.BigEndian.Uint32. -/
def be32 (b3 b2 b1 b0 : Nat) : Nat := ((b3 * 256 + b2) * 256 + b1) * 256 + b0

/-- Big endian 16 bit write, binary.BigEndian.PutUint16. -/
def be16Bytes (v : Nat) : List Nat := [(v >>> 8) % 256, v % 256]

/-- Big endian 32 bit write, binary.BigEndian.PutUint32. -/
def be32Bytes (v : Nat) : List Nat :=
  [(v >>> 24) % 256, (v >>> 16) % 256, (v >>> 8) % 256, v % 256]

/-- The folding step shared by both checksum computations in packet.go:
(s + (s >> 8)) & 0xff.  On the send side the same expression appears as
the uint8 conversion of checksum + (checksum >> 8). -/
def foldSum (s : Nat) : Nat := (s + (s >>> 8)) &&& 0xff

/-- The fsp packet record, fspPacket in packet.go.  buf holds region A
followed by region B. -/
structure fspPacket where
  cmd : Nat
  sum : Nat
  key : Nat
  seq : Nat
  len : Nat
  pos : Nat
  xlen : Nat
  buf : List Nat
deriving DecidableEq

/-- The Go zero value of fspPacket (var out fspPacket). -/
def fspPacket.zero : fspPacket := ⟨0, 0, 0, 0, 0, 0, 0, []⟩

/-- fspPacket.read from packet.go: parse and verify a received datagram.
The receive side checksum is the fold of the byte sum with the sum byte
zeroed; note that, unlike the send side, no length term is added. -/
def fspPacket.read (buff : List Nat) : Except String fspPacket :=
  if buff.length < FSPHSzie then .error "recv packet too short"
  else if buff.length > FSPMaxPacket then .error "recv packet too long"
  else
    let mySum := foldSum (buff.sum - buff.getD fspOffsetSum 0)
    if mySum ≠ buff.getD fspOffsetSum 0 then .error "checksum fail"
    else
      let len := be16 (buff.getD fspOffsetLen 0) (buff.getD (fspOffsetLen + 1) 0)
      if len + FSPHSzie > buff.length then .error "fsp packet length field invalid"
      else .ok
        { cmd := buff.getD fspOffsetCmd 0
          sum := mySum
          key := be16 (buff.getD fspOffsetKey 0) (buff.getD (fspOffsetKey + 1) 0)
          seq := be16 (buff.getD fspOffsetSeq 0) (buff.getD (fspOffsetSeq + 1) 0)
          len := len
          pos := be32 (buff.getD fspOffsetPos 0) (buff.getD (fspOffsetPos + 1) 0)
            (buff.getD (fspOffsetPos + 2) 0) (buff.getD (fspOffsetPos + 3) 0)
          xlen := buff.length - len - FSPHSzie
          buf := buff.drop FSPHSzie }

/-- Region B of an outgoing datagram as assembled by fspPacket.write: for
GET_FILE with xlen = 2 the session packet size hint is substituted, for
any other command the bytes buf[len : len+xlen] are appended (a Go slice
overrun beyond the buffer is a panic in this model). -/
def regionBBytes (pkt : fspPacket) (pktSize : Nat) : Except String (List Nat) :=
  if pkt.cmd = FSPCommandGetFile then
    if pkt.xlen = 2 then .ok (be16Bytes pktSize) else .ok []
  else if 0 < pkt.xlen then
    if pkt.len + pkt.xlen ≤ pkt.buf.length then
      .ok ((pkt.buf.drop pkt.len).take pkt.xlen)
    else .error "panic: slice bounds out of range"
  else .ok []

/-- fspPacket.write from packet.go: serialize the header big endian with a
zero sum byte, append region A and region B, then store the fold of
(byte sum + datagram length) as the sum byte.  pktSize is the session
packet size hint s.trans.pktSize. -/
def fspPacket.write (pkt : fspPacket) (pktSize : Nat) : Except String (List Nat) :=
  if (pkt.xlen + pkt.len) % 65536 > FSPSpace then .error "packet payload too big"
  else if pkt.buf.length < pkt.len then .error "panic: slice bounds out of range"
  else
    match regionBBytes pkt pktSize with
    | .error e => .error e
    | .ok regB =>
      let body := pkt.cmd :: 0 :: (be16Bytes pkt.key ++ be16Bytes pkt.seq ++
        be16Bytes pkt.len ++ be32Bytes pkt.pos ++ pkt.buf.take pkt.len ++ regB)
      .ok (body.set fspOffsetSum (foldSum (body.sum + body.length)))

/-- fspPacket.buildFileName from packet.go: append filename, an optional
newline and password, and a NUL to the packet buffer, recording the
serialized length in len.  The guard rejects inputs with
len(fileName) + len(password) + 2 >= FSPSpace. -/
def fspPacket.buildFileName (pkt : fspPacket) (fileName password : List Nat) :
    Except String fspPacket :=
  if fileName.length + password.length + 2 ≥ FSPSpace then .error "file name too long"
  else
    let pkt1 := { pkt with buf := pkt.buf ++ fileName, len := fileName.length }
    let pkt2 :=
      if password ≠ [] then
        { pkt1 with buf := pkt1.buf ++ [10] ++ password,
                    len := pkt1.len + 1 + password.length }
      else pkt1
    .ok { pkt2 with buf := pkt2.buf ++ [0], len := pkt2.len + 1 }

/-- Receiver side checksum of a datagram: fold of the byte sum with the
sum byte zeroed (what fspPacket.read recomputes). -/
def recvSum (d : List Nat) : Nat := foldSum (d.sum - d.getD fspOffsetSum 0)

/-- Replace the sum byte of a datagram by the receiver side checksum. -/
def fixSum (d : List Nat) : List Nat := d.set fspOffsetSum (recvSum d)

/-- Encode with fspPacket.write, repair the sum byte to the receiver
convention, then decode with fspPacket.read. -/
def encodeThenDecode (pkt : fspPacket) (pktSize : Nat) : Option fspPacket :=
  (exceptSome (pkt.write pktSize)).bind fun d => exceptSome (fspPacket.read (fixSum d))

theorem be16_inv (v : Nat) (h : v < 65536) : be16 ((v >>> 8) % 256) (v % 256) = v := by
  have h1 : v >>> 8 = v / 256 := by
    simp [Nat.shiftRight_eq_div_pow]
  have h2 := Nat.div_add_mod v 256
  have h3 : v / 256 < 256 := by omega
  simp only [be16, h1, Nat.mod_eq_of_lt h3]
  omega

theorem be32_inv (v : Nat) (h : v < 2 ^ 32) :
    be32 ((v >>> 24) % 256) ((v >>> 16) % 256) ((v >>> 8) % 256) (v % 256) = v := by
  have e24 : v >>> 24 = v / 16777216 := by simp [Nat.shiftRight_eq_div_pow]
  have e16 : v >>> 16 = v / 65536 := by simp [Nat.shiftRight_eq_div_pow]
  have e8 : v >>> 8 = v / 256 := by simp [Nat.shiftRight_eq_div_pow]
  have q1 : v / 256 / 256 = v / 65536 := by rw [Nat.div_div_eq_div_mul]
  have q2 : v / 65536 / 256 = v / 16777216 := by rw [Nat.div_div_eq_div_mul]
  have d1 := Nat.div_add_mod v 256
  have d2 := Nat.div_add_mod (v / 256) 256
  have d3 := Nat.div_add_mod (v / 65536) 256
  rw [q1] at d2
  rw [q2] at d3
  have h24 : v / 16777216 < 256 := by omega
  simp only [be32, e24, e16, e8, Nat.mod_eq_of_lt h24]
  omega

theorem read_ok_shape
    (c0 c1 k1 k0 s1 s0 l1 l0 p3 p2 p1 p0 : Nat) (payload : List Nat)
    (hlen : payload.length ≤ FSPSpace)
    (hsum : c1 = foldSum (c0 + k1 + k0 + s1 + s0 + l1 + l0 + p3 + p2 + p1 + p0 + payload.sum))
    (hfield : be16 l1 l0 ≤ payload.length) :
    fspPacket.read
        (c0 :: c1 :: k1 :: k0 :: s1 :: s0 :: l1 :: l0 :: p3 :: p2 :: p1 :: p0 :: payload) =
      .ok { cmd := c0, sum := c1, key := be16 k1 k0, seq := be16 s1 s0,
            len := be16 l1 l0, pos := be32 p3 p2 p1 p0,
            xlen := payload.length - be16 l1 l0, buf := payload } := by
  set buff : List Nat :=
    c0 :: c1 :: k1 :: k0 :: s1 :: s0 :: l1 :: l0 :: p3 :: p2 :: p1 :: p0 :: payload with hbuff
  have hL : buff.length = payload.length + 12 := by simp [hbuff]
  have hsub : buff.sum - buff.getD fspOffsetSum 0
      = c0 + k1 + k0 + s1 + s0 + l1 + l0 + p3 + p2 + p1 + p0 + payload.sum := by
    simp [hbuff, fspOffsetSum]
    omega
  unfold fspPacket.read
  rw [if_neg (by simp only [FSPHSzie]; omega),
    if_neg (by simp only [FSPMaxPacket, FSPHSzie, FSPSpace] at hlen ⊢; omega)]
  rw [hsub]
  rw [if_neg (by simp [hbuff, fspOffsetSum]; omega)]
  rw [if_neg (by simp [hbuff, fspOffsetLen, FSPHSzie]; omega)]
  simp [hbuff, fspOffsetCmd, fspOffsetSum, fspOffsetKey, fspOffsetSeq, fspOffsetLen,
    fspOffsetPos, FSPHSzie]
  refine ⟨by omega, by omega⟩

/-- C2 (amended): fspPacket.read succeeds exactly when the datagram length is
between 12 and 14720 inclusive, the sum byte equals the fold of the byte sum
with the sum byte zeroed (with no datagram-length term, unlike the claim as
stated), and 12 + len is at most the datagram length. -/
theorem C2_read_success_iff (buff : List Nat) :
    exceptOk (fspPacket.read buff) = true ↔
      (FSPHSzie ≤ buff.length ∧ buff.length ≤ FSPMaxPacket ∧
       foldSum (buff.sum - buff.getD fspOffsetSum 0) = buff.getD fspOffsetSum 0 ∧
       be16 (buff.getD fspOffsetLen 0) (buff.getD (fspOffsetLen + 1) 0) + FSPHSzie
         ≤ buff.length) := by
  unfold fspPacket.read
  by_cases h1 : buff.length < FSPHSzie
  · rw [if_pos h1]
    simp only [exceptOk, Bool.false_eq_true, false_iff]
    intro h
    omega
  · rw [if_neg h1]
    by_cases h2 : buff.length > FSPMaxPacket
    · rw [if_pos h2]
      simp only [exceptOk, Bool.false_eq_true, false_iff]
      intro h
      omega
    · rw [if_neg h2]
      by_cases h3 : foldSum (buff.sum - buff.getD fspOffsetSum 0) ≠ buff.getD fspOffsetSum 0
      · rw [if_pos h3]
        simp only [exceptOk, Bool.false_eq_true, false_iff]
        intro h
        exact h3 h.2.2.1
      · rw [if_neg h3]
        by_cases h4 : be16 (buff.getD fspOffsetLen 0) (buff.getD (fspOffsetLen + 1) 0)
            + FSPHSzie > buff.length
        · rw [if_pos h4]
          simp only [exceptOk, Bool.false_eq_true, false_iff]
          intro h
          omega
        · rw [if_neg h4]
          simp only [exceptOk, true_iff]
          exact ⟨by omega, by omega, by omega, by omega⟩

/-- C2 counterexample: the all-zero 12-byte datagram decodes successfully,
yet its sum byte 0 differs from the value 12 demanded by the claimed
checksum formula s = datagram_length + byte sum with the sum byte zeroed. -/
theorem C2_counterexample :
    exceptOk (fspPacket.read (List.replicate 12 0)) = true ∧
      foldSum (12 + ((List.replicate 12 0).sum - (List.replicate 12 0).getD fspOffsetSum 0))
        ≠ (List.replicate 12 0).getD fspOffsetSum 0 := by decide

/-- C2 witness: the success condition evaluated on the all-zero 12 byte
datagram. -/
theorem C2_witness :
    exceptOk (fspPacket.read (List.replicate 12 0)) = true ↔
      (FSPHSzie ≤ (List.replicate 12 0 : List Nat).length ∧
       (List.replicate 12 0 : List Nat).length ≤ FSPMaxPacket ∧
       foldSum ((List.replicate 12 0 : List Nat).sum -
           (List.replicate 12 0 : List Nat).getD fspOffsetSum 0)
         = (List.replicate 12 0 : List Nat).getD fspOffsetSum 0 ∧
       be16 ((List.replicate 12 0 : List Nat).getD fspOffsetLen 0)
           ((List.replicate 12 0 : List Nat).getD (fspOffsetLen + 1) 0) + FSPHSzie
         ≤ (List.replicate 12 0 : List Nat).length) :=
  C2_read_success_iff (List.replicate 12 0)

theorem write_ok_shape (p : fspPacket) (pktSize : Nat)
    (hcmd : p.cmd ≠ FSPCommandGetFile)
    (hlen : p.len + p.xlen ≤ FSPSpace)
    (hbuf : p.len + p.xlen ≤ p.buf.length) :
    p.write pktSize = .ok
      ((p.cmd :: 0 :: (be16Bytes p.key ++ be16Bytes p.seq ++ be16Bytes p.len ++
          be32Bytes p.pos ++ p.buf.take p.len ++ (p.buf.drop p.len).take p.xlen)).set 1
        (foldSum ((p.cmd :: 0 :: (be16Bytes p.key ++ be16Bytes p.seq ++ be16Bytes p.len ++
          be32Bytes p.pos ++ p.buf.take p.len ++ (p.buf.drop p.len).take p.xlen)).sum +
          (p.cmd :: 0 :: (be16Bytes p.key ++ be16Bytes p.seq ++ be16Bytes p.len ++
          be32Bytes p.pos ++ p.buf.take p.len ++ (p.buf.drop p.len).take p.xlen)).length))) := by
  have hlen14708 : p.len + p.xlen ≤ 14708 := by simpa [FSPSpace] using hlen
  have hB : regionBBytes p pktSize = .ok ((p.buf.drop p.len).take p.xlen) := by
    unfold regionBBytes
    rw [if_neg hcmd]
    by_cases hx : 0 < p.xlen
    · rw [if_pos hx, if_pos (by omega)]
    · rw [if_neg hx]
      have hx0 : p.xlen = 0 := by omega
      simp [hx0]
  unfold fspPacket.write
  rw [if_neg (by
    rw [Nat.mod_eq_of_lt (by simp only [FSPSpace] at hlen; omega)]
    simp only [FSPSpace] at hlen ⊢
    omega)]
  rw [if_neg (by omega), hB]
  rfl

/-- C1 (amended): for every packet whose command is not GET_FILE (for which
Encode substitutes the packet size hint as region B), whose total payload is
at most 14708 and covered by its buffer, decoding the datagram produced by
Encode succeeds and reconstructs cmd, key, seq, len, pos and the region A
and B bytes exactly, once the sum byte is replaced by the receiver-side
checksum: Encode folds the byte sum plus the datagram length into the sum
byte while Decode verifies the fold of the byte sum alone, so the datagram
as actually produced fails Decode's checksum comparison. -/
theorem C1_encode_fixSum_decode (p : fspPacket) (pktSize : Nat)
    (hcmd : p.cmd ≠ FSPCommandGetFile)
    (hlen : p.len + p.xlen ≤ FSPSpace)
    (hbuf : p.len + p.xlen ≤ p.buf.length)
    (hkey : p.key < 65536) (hseq : p.seq < 65536) (hpos : p.pos < 2 ^ 32) :
    (encodeThenDecode p pktSize).map fspPacket.cmd = some p.cmd ∧
    (encodeThenDecode p pktSize).map fspPacket.key = some p.key ∧
    (encodeThenDecode p pktSize).map fspPacket.seq = some p.seq ∧
    (encodeThenDecode p pktSize).map fspPacket.len = some p.len ∧
    (encodeThenDecode p pktSize).map fspPacket.pos = some p.pos ∧
    (encodeThenDecode p pktSize).map fspPacket.xlen = some p.xlen ∧
    (encodeThenDecode p pktSize).map fspPacket.buf
      = some (p.buf.take p.len ++ (p.buf.drop p.len).take p.xlen) := by
  have hlen14708 : p.len + p.xlen ≤ 14708 := by simpa [FSPSpace] using hlen
  have hAlen : (p.buf.take p.len).length = p.len := by
    simp [List.length_take]
    omega
  have hBlen : ((p.buf.drop p.len).take p.xlen).length = p.xlen := by
    simp [List.length_take, List.length_drop]
    omega
  have hW := write_ok_shape p pktSize hcmd hlen hbuf
  set t : List Nat := be16Bytes p.key ++ be16Bytes p.seq ++ be16Bytes p.len ++
    be32Bytes p.pos ++ p.buf.take p.len ++ (p.buf.drop p.len).take p.xlen with ht
  set S : Nat := foldSum ((p.cmd :: 0 :: t).sum + (p.cmd :: 0 :: t).length) with hS
  have hW2 : p.write pktSize = .ok (p.cmd :: S :: t) := by
    rw [hW]
    rfl
  have hpayLen : (p.buf.take p.len ++ (p.buf.drop p.len).take p.xlen).length
      = p.len + p.xlen := by
    simp [List.length_append, hAlen, hBlen]
  have hrecv : recvSum (p.cmd :: S :: t) = foldSum (p.cmd + t.sum) := by
    unfold recvSum fspOffsetSum
    refine congrArg foldSum ?_
    simp
    omega
  have hfix : fixSum (p.cmd :: S :: t) = p.cmd :: foldSum (p.cmd + t.sum) :: t := by
    unfold fixSum fspOffsetSum
    rw [show (p.cmd :: S :: t).set 1 (recvSum (p.cmd :: S :: t))
      = p.cmd :: recvSum (p.cmd :: S :: t) :: t from rfl, hrecv]
  have htc : p.cmd :: foldSum (p.cmd + t.sum) :: t
      = p.cmd :: foldSum (p.cmd + t.sum) :: (p.key >>> 8) % 256 :: p.key % 256 ::
        (p.seq >>> 8) % 256 :: p.seq % 256 :: (p.len >>> 8) % 256 :: p.len % 256 ::
        (p.pos >>> 24) % 256 :: (p.pos >>> 16) % 256 :: (p.pos >>> 8) % 256 :: p.pos % 256 ::
        (p.buf.take p.len ++ (p.buf.drop p.len).take p.xlen) := by
    rw [ht]
    simp [be16Bytes, be32Bytes]
  have hsumArg : foldSum (p.cmd + t.sum)
      = foldSum (p.cmd + (p.key >>> 8) % 256 + p.key % 256 + (p.seq >>> 8) % 256 +
          p.seq % 256 + (p.len >>> 8) % 256 + p.len % 256 + (p.pos >>> 24) % 256 +
          (p.pos >>> 16) % 256 + (p.pos >>> 8) % 256 + p.pos % 256 +
          (p.buf.take p.len ++ (p.buf.drop p.len).take p.xlen).sum) := by
    refine congrArg foldSum ?_
    rw [ht]
    simp [be16Bytes, be32Bytes, List.sum_append]
    omega
  have hread := read_ok_shape p.cmd (foldSum (p.cmd + t.sum))
    ((p.key >>> 8) % 256) (p.key % 256) ((p.seq >>> 8) % 256) (p.seq % 256)
    ((p.len >>> 8) % 256) (p.len % 256)
    ((p.pos >>> 24) % 256) ((p.pos >>> 16) % 256) ((p.pos >>> 8) % 256) (p.pos % 256)
    (p.buf.take p.len ++ (p.buf.drop p.len).take p.xlen)
    (by rw [hpayLen]; exact hlen)
    hsumArg
    (by rw [be16_inv p.len (by omega), hpayLen]; omega)
  have hED : encodeThenDecode p pktSize = some
      { cmd := p.cmd, sum := foldSum (p.cmd + t.sum), key := p.key, seq := p.seq,
        len := p.len, pos := p.pos, xlen := p.xlen,
        buf := p.buf.take p.len ++ (p.buf.drop p.len).take p.xlen } := by
    unfold encodeThenDecode
    rw [hW2]
    show exceptSome (fspPacket.read (fixSum (p.cmd :: S :: t))) = _
    rw [hfix, htc, hread]
    show some _ = some _
    rw [be16_inv p.key hkey, be16_inv p.seq hseq, be16_inv p.len (by omega),
      be32_inv p.pos hpos, hpayLen]
    congr 2
    omega
  rw [hED]
  exact ⟨rfl, rfl, rfl, rfl, rfl, rfl, rfl⟩

/-- C1 counterexample: for the empty VERSION packet, Encode produces the
datagram 10 1c 00 ... 00, whose sum byte 0x1c folds in the datagram length
12, and Decode rejects exactly that datagram with a checksum failure, so
Decode(Encode(P)) does not succeed as the claim states.  Moreover for a
GET_FILE packet with xlen = 1 the encoder drops region B entirely, so even
after repairing the sum byte the decoded xlen is 0, not 1. -/
theorem C1_counterexample :
    ({ fspPacket.zero with cmd := FSPCommandVersion } : fspPacket).write 768
        = .ok [16, 28, 0, 0, 0, 0, 0, 0, 0, 0, 0, 0] ∧
    exceptOk (fspPacket.read [16, 28, 0, 0, 0, 0, 0, 0, 0, 0, 0, 0]) = false ∧
    (encodeThenDecode
        { fspPacket.zero with cmd := FSPCommandGetFile, xlen := 1, buf := [7] } 768).map
      fspPacket.xlen = some 0 := by decide

/-- C1 witness: the amended round trip evaluated on a concrete VERSION
packet with nonempty regions A and B. -/
theorem C1_witness :
    (encodeThenDecode ⟨16, 0, 258, 515, 2, 70000, 1, [5, 6, 7]⟩ 768).map fspPacket.cmd
        = some 16 ∧
    (encodeThenDecode ⟨16, 0, 258, 515, 2, 70000, 1, [5, 6, 7]⟩ 768).map fspPacket.key
        = some 258 ∧
    (encodeThenDecode ⟨16, 0, 258, 515, 2, 70000, 1, [5, 6, 7]⟩ 768).map fspPacket.seq
        = some 515 ∧
    (encodeThenDecode ⟨16, 0, 258, 515, 2, 70000, 1, [5, 6, 7]⟩ 768).map fspPacket.len
        = some 2 ∧
    (encodeThenDecode ⟨16, 0, 258, 515, 2, 70000, 1, [5, 6, 7]⟩ 768).map fspPacket.pos
        = some 70000 ∧
    (encodeThenDecode ⟨16, 0, 258, 515, 2, 70000, 1, [5, 6, 7]⟩ 768).map fspPacket.xlen
        = some 1 ∧
    (encodeThenDecode ⟨16, 0, 258, 515, 2, 70000, 1, [5, 6, 7]⟩ 768).map fspPacket.buf
        = some [5, 6, 7] :=
  C1_encode_fixSum_decode ⟨16, 0, 258, 515, 2, 70000, 1, [5, 6, 7]⟩ 768
    (by decide) (by decide) (by decide) (by decide) (by decide) (by decide)

/-- C7 (amended): buildFileName serializes filename, newline, password, NUL
into region A when the password is nonempty and filename, NUL otherwise,
records the serialized length in len, and fails with the name too long
error exactly when len(fileName) + len(password) + 2 reaches 14708 — one
byte earlier than the claimed strict serialized-length bound. -/
theorem C7_buildFileName_shape (pkt : fspPacket) (fileName password : List Nat) :
    (fileName.length + password.length + 2 ≥ FSPSpace →
      pkt.buildFileName fileName password = .error "file name too long") ∧
    (fileName.length + password.length + 2 < FSPSpace → password = [] →
      pkt.buildFileName fileName password = .ok { pkt with
        buf := pkt.buf ++ fileName ++ [0],
        len := fileName.length + 1 }) ∧
    (fileName.length + password.length + 2 < FSPSpace → password ≠ [] →
      pkt.buildFileName fileName password = .ok { pkt with
        buf := pkt.buf ++ fileName ++ (10 :: password) ++ [0],
        len := fileName.length + 1 + password.length + 1 }) := by
  refine ⟨fun h => ?_, fun h hpw => ?_, fun h hpw => ?_⟩
  · unfold fspPacket.buildFileName
    rw [if_pos h]
  · subst hpw
    unfold fspPacket.buildFileName
    rw [if_neg (by omega)]
    simp
  · unfold fspPacket.buildFileName
    rw [if_neg (by omega)]
    simp [hpw]

/-- C7 counterexample: a 14705 byte filename with a 1 byte password
serializes to exactly 14708 bytes of region A, which does not exceed
14708, yet the builder rejects it with the name too long error. -/
theorem C7_counterexample :
    fspPacket.zero.buildFileName (List.replicate 14705 97) [98]
        = .error "file name too long" ∧
    (List.replicate 14705 97).length + 1 + [98].length + 1 = 14708 := by
  have hlen : (List.replicate 14705 97).length + [98].length + 2 ≥ FSPSpace := by
    simp only [List.length_replicate, List.length_cons, List.length_nil, FSPSpace]
    omega
  constructor
  · unfold fspPacket.buildFileName
    rw [if_pos hlen]
  · simp only [List.length_replicate, List.length_cons, List.length_nil]

/-- C7 witness: the builder evaluated on a small filename and password. -/
theorem C7_witness :
    fspPacket.zero.buildFileName [97] [98] = .ok { fspPacket.zero with
      buf := [] ++ [97] ++ (10 :: [98]) ++ [0],
      len := 1 + 1 + 1 + 1 } :=
  (C7_buildFileName_shape fspPacket.zero [97] [98]).2.2 (by decide) (by decide)

/-- The commands for which Session.transaction additionally checks that the
reply position equals the request position (session.go lines 256 and 257). -/
def posBearingCmd (cmd : Nat) : Bool :=
  cmd == FSPCommandGetDir || cmd == FSPCommandGetFile || cmd == FSPCommandUpload ||
    cmd == FSPCommandGrabFile || cmd == FSPCommandInfo

/-- The receive sub-loop of Session.transaction (session.go lines 232 to
269), drained over the list of datagrams arriving within one read deadline:
a datagram that fails to decode is skipped, a datagram whose sequence base,
command, or (for position-bearing commands) position does not match is
skipped with the duplicate counter incremented, and the first matching
reply is returned together with the number of duplicates counted. -/
def recvLoop (pkt : fspPacket) (seqBase : Nat) : List (List Nat) → Option fspPacket × Nat
  | [] => (none, 0)
  | buff :: rest =>
    match fspPacket.read buff with
    | .error _ => recvLoop pkt seqBase rest
    | .ok resp =>
      if resp.seq &&& 0xfff8 ≠ seqBase then
        ((recvLoop pkt seqBase rest).1, (recvLoop pkt seqBase rest).2 + 1)
      else if resp.cmd ≠ pkt.cmd ∧ resp.cmd ≠ FSPCommandErr then
        ((recvLoop pkt seqBase rest).1, (recvLoop pkt seqBase rest).2 + 1)
      else if resp.pos ≠ pkt.pos ∧ posBearingCmd pkt.cmd = true then
        ((recvLoop pkt seqBase rest).1, (recvLoop pkt seqBase rest).2 + 1)
      else (some resp, 0)

/-- The acceptance predicate implicit in the receive sub-loop. -/
def acceptReply (pkt : fspPacket) (seqBase : Nat) (resp : fspPacket) : Bool :=
  (resp.seq &&& 0xfff8 == seqBase) &&
    (resp.cmd == pkt.cmd || resp.cmd == FSPCommandErr) &&
    (resp.pos == pkt.pos || !posBearingCmd pkt.cmd)

/-- C3: a received datagram is returned as the reply of the receive
sub-loop only if it decodes with a valid checksum, its sequence base
matches the sent base, its command matches the request command or is ERR,
and its position matches for position-bearing commands; every earlier
datagram either failed to decode (dropped silently) or decoded but failed
one of those checks (dropped with the duplicate counter incremented), and
the counter returned is exactly the number of the latter. -/
theorem C3_receive_filter (pkt : fspPacket) (seqBase : Nat) (ds : List (List Nat))
    (resp : fspPacket) (n : Nat)
    (h : recvLoop pkt seqBase ds = (some resp, n)) :
    acceptReply pkt seqBase resp = true ∧
    resp.seq &&& 0xfff8 = seqBase ∧
    (resp.cmd = pkt.cmd ∨ resp.cmd = FSPCommandErr) ∧
    (posBearingCmd pkt.cmd = true → resp.pos = pkt.pos) ∧
    ∃ pre d suf, ds = pre ++ d :: suf ∧ fspPacket.read d = .ok resp ∧
      n = (pre.filter (fun b => exceptOk (fspPacket.read b))).length ∧
      ∀ b ∈ pre, ∀ r, fspPacket.read b = .ok r → acceptReply pkt seqBase r = false := by
  induction ds generalizing n with
  | nil => simp [recvLoop] at h
  | cons d0 rest ih =>
    rw [recvLoop] at h
    cases hr : fspPacket.read d0 with
    | error e =>
      rw [hr] at h
      simp only [] at h
      obtain ⟨hacc, h1, h2, h3, pre, d, suf, hds, hread, hn, hpre⟩ := ih n h
      refine ⟨hacc, h1, h2, h3, d0 :: pre, d, suf, by simp [hds], hread, ?_, ?_⟩
      · simp [List.filter, hr, exceptOk, hn]
      · intro b hb r hbr
        rcases List.mem_cons.mp hb with hb0 | hbmem
        · subst hb0
          rw [hr] at hbr
          exact absurd hbr (by simp)
        · exact hpre b hbmem r hbr
    | ok r0 =>
      rw [hr] at h
      simp only [] at h
      by_cases c1 : r0.seq &&& 0xfff8 ≠ seqBase
      · rw [if_pos c1] at h
        have hfalse : acceptReply pkt seqBase r0 = false := by simp [acceptReply, c1]
        rcases hsplit : recvLoop pkt seqBase rest with ⟨o, m⟩
        rw [hsplit] at h
        simp only [Prod.mk.injEq] at h
        obtain ⟨ho, hm⟩ := h
        subst ho
        obtain ⟨hacc, h1, h2, h3, pre, d, suf, hds, hread, hn, hpre⟩ := ih m hsplit
        refine ⟨hacc, h1, h2, h3, d0 :: pre, d, suf, by simp [hds], hread, ?_, ?_⟩
        · rw [List.filter_cons, hr]
          rw [if_pos (show exceptOk (Except.ok r0 : Except String fspPacket) = true from rfl)]
          simp only [List.length_cons]
          omega
        · intro b hb r hbr
          rcases List.mem_cons.mp hb with hb0 | hbmem
          · subst hb0
            rw [hr] at hbr
            injection hbr with hrr
            rw [← hrr]
            exact hfalse
          · exact hpre b hbmem r hbr
      · by_cases c2 : r0.cmd ≠ pkt.cmd ∧ r0.cmd ≠ FSPCommandErr
        · rw [if_neg c1, if_pos c2] at h
          have hfalse : acceptReply pkt seqBase r0 = false := by
            simp [acceptReply, c2.1, c2.2]
          rcases hsplit : recvLoop pkt seqBase rest with ⟨o, m⟩
          rw [hsplit] at h
          simp only [Prod.mk.injEq] at h
          obtain ⟨ho, hm⟩ := h
          subst ho
          obtain ⟨hacc, h1, h2, h3, pre, d, suf, hds, hread, hn, hpre⟩ := ih m hsplit
          refine ⟨hacc, h1, h2, h3, d0 :: pre, d, suf, by simp [hds], hread, ?_, ?_⟩
          · rw [List.filter_cons, hr]
            rw [if_pos (show exceptOk (Except.ok r0 : Except String fspPacket) = true from rfl)]
            simp only [List.length_cons]
            omega
          · intro b hb r hbr
            rcases List.mem_cons.mp hb with hb0 | hbmem
            · subst hb0
              rw [hr] at hbr
              injection hbr with hrr
              rw [← hrr]
              exact hfalse
            · exact hpre b hbmem r hbr
        · by_cases c3 : r0.pos ≠ pkt.pos ∧ posBearingCmd pkt.cmd = true
          · rw [if_neg c1, if_neg c2, if_pos c3] at h
            have hfalse : acceptReply pkt seqBase r0 = false := by
              simp [acceptReply, c3.1, c3.2]
            rcases hsplit : recvLoop pkt seqBase rest with ⟨o, m⟩
            rw [hsplit] at h
            simp only [Prod.mk.injEq] at h
            obtain ⟨ho, hm⟩ := h
            subst ho
            obtain ⟨hacc, h1, h2, h3, pre, d, suf, hds, hread, hn, hpre⟩ := ih m hsplit
            refine ⟨hacc, h1, h2, h3, d0 :: pre, d, suf, by simp [hds], hread, ?_, ?_⟩
            · rw [List.filter_cons, hr]
              rw [if_pos (show exceptOk (Except.ok r0 : Except String fspPacket) = true from rfl)]
              simp only [List.length_cons]
              omega
            · intro b hb r hbr
              rcases List.mem_cons.mp hb with hb0 | hbmem
              · subst hb0
                rw [hr] at hbr
                injection hbr with hrr
                rw [← hrr]
                exact hfalse
              · exact hpre b hbmem r hbr
          · rw [if_neg c1, if_neg c2, if_neg c3] at h
            rw [Prod.mk.injEq] at h
            obtain ⟨ho, hn0⟩ := h
            injection ho with ho0
            subst ho0
            subst hn0
            have hseq : r0.seq &&& 0xfff8 = seqBase := not_ne_iff.mp c1
            have hcmd : r0.cmd = pkt.cmd ∨ r0.cmd = FSPCommandErr := by tauto
            have hpos : posBearingCmd pkt.cmd = true → r0.pos = pkt.pos := by
              intro hb
              by_contra hne
              exact c3 ⟨hne, hb⟩
            have hacc : acceptReply pkt seqBase r0 = true := by
              simp only [acceptReply, hseq, beq_self_eq_true, Bool.true_and,
                Bool.and_eq_true, Bool.or_eq_true, beq_iff_eq, Bool.not_eq_true']
              refine ⟨hcmd, ?_⟩
              by_cases hb : posBearingCmd pkt.cmd = true
              · exact Or.inl (hpos hb)
              · exact Or.inr (by simpa using hb)
            refine ⟨hacc, hseq, hcmd, hpos, [], d0, rest, rfl, hr, by simp, ?_⟩
            intro b hb r hbr
            simp at hb

/-- A concrete VERSION request packet for exercising the receive filter. -/
def pktC3 : fspPacket := ⟨16, 0, 0, 0, 0, 0, 0, []⟩

/-- A concrete well-checksummed VERSION reply datagram. -/
def dgC3 : List Nat := [16, 16, 0, 0, 0, 0, 0, 0, 0, 0, 0, 0]

/-- The packet dgC3 decodes to. -/
def respC3 : fspPacket := ⟨16, 16, 0, 0, 0, 0, 0, []⟩

/-- C3 witness: the receive filter run on a single valid VERSION reply. -/
theorem C3_witness :
    acceptReply pktC3 0 respC3 = true ∧
    respC3.seq &&& 0xfff8 = 0 ∧
    (respC3.cmd = pktC3.cmd ∨ respC3.cmd = FSPCommandErr) ∧
    (posBearingCmd pktC3.cmd = true → respC3.pos = pktC3.pos) ∧
    ∃ pre d suf, [dgC3] = pre ++ d :: suf ∧ fspPacket.read d = Except.ok respC3 ∧
      0 = (pre.filter (fun b => exceptOk (fspPacket.read b))).length ∧
      ∀ b ∈ pre, ∀ r, fspPacket.read b = Except.ok r → acceptReply pktC3 0 r = false :=
  C3_receive_filter pktC3 0 [dgC3] respC3 0 (by decide)

/-- The reply processing of Session.GetProtecion (fsp.go): reject a reply
whose pos is not FSPProBytes, then return the byte at payload index len —
the first byte of region B — where an out of range index is a Go panic. -/
def GetProtecionReply (resp : fspPacket) : Except String Nat :=
  if resp.pos ≠ FSPProBytes then .error "GetProtecion ENOMSG"
  else
    match resp.buf[resp.len]? with
    | some b => .ok b
    | none => .error "panic: index out of range"

/-- The GET_PRO request packet Session.GetProtecion builds for directory
"/" with an empty password. -/
def reqC10 : fspPacket := ⟨0x47, 0, 0, 0, 2, 0, 0, [47, 0]⟩

/-- A well-checksummed GET_PRO reply datagram with pos = 1 and xlen = 0. -/
def dgC10 : List Nat := [71, 80, 0, 0, 0, 0, 0, 1, 0, 0, 0, 1, 7]

/-- The packet dgC10 decodes to. -/
def respC10 : fspPacket := ⟨71, 80, 0, 0, 1, 1, 0, [7]⟩

/-- C10: GetProtecion returns the byte at payload index len, the first byte
of region B, without checking xlen; for every decoded reply (whose payload
buffer has length len + xlen) with pos = 1 the access is in bounds exactly
when xlen ≥ 1, and a concrete well-checksummed GET_PRO reply with pos = 1
and xlen = 0 passes the transaction acceptance filter yet sends the
indexing into its out-of-range branch, so the panic branch is reachable at
the public interface. -/
theorem C10_getProtection_bounds (resp : fspPacket)
    (hwf : resp.buf.length = resp.len + resp.xlen) (hpos : resp.pos = FSPProBytes) :
    (1 ≤ resp.xlen → GetProtecionReply resp = .ok (resp.buf.getD resp.len 0)) ∧
    (resp.xlen = 0 → GetProtecionReply resp = .error "panic: index out of range") ∧
    (fspPacket.read dgC10 = .ok respC10 ∧ acceptReply reqC10 0 respC10 = true ∧
      GetProtecionReply respC10 = .error "panic: index out of range") := by
  refine ⟨fun hx => ?_, fun hx => ?_, by decide⟩
  · unfold GetProtecionReply
    rw [if_neg (by simp [hpos])]
    obtain ⟨b, hb⟩ : ∃ b, resp.buf[resp.len]? = some b :=
      ⟨_, List.getElem?_eq_getElem (by omega)⟩
    rw [hb]
    simp [List.getD, hb]
  · unfold GetProtecionReply
    rw [if_neg (by simp [hpos])]
    rw [List.getElem?_eq_none (by omega)]

/-- C10 witness: a reply with one region B byte reads it, and the reply
with empty region B panics. -/
theorem C10_witness :
    (1 ≤ (⟨71, 0, 0, 0, 1, 1, 1, [7, 5]⟩ : fspPacket).xlen →
      GetProtecionReply ⟨71, 0, 0, 0, 1, 1, 1, [7, 5]⟩
        = .ok ((⟨71, 0, 0, 0, 1, 1, 1, [7, 5]⟩ : fspPacket).buf.getD 1 0)) ∧
    ((⟨71, 0, 0, 0, 1, 1, 1, [7, 5]⟩ : fspPacket).xlen = 0 →
      GetProtecionReply ⟨71, 0, 0, 0, 1, 1, 1, [7, 5]⟩
        = .error "panic: index out of range") ∧
    (fspPacket.read dgC10 = .ok respC10 ∧ acceptReply reqC10 0 respC10 = true ∧
      GetProtecionReply respC10 = .error "panic: index out of range") :=
  C10_getProtection_bounds ⟨71, 0, 0, 0, 1, 1, 1, [7, 5]⟩ (by decide) (by decide)

/-- Decimal digit test on a character, byte range 48 to 57. -/
def isDigitChar (c : Char) : Bool := 48 ≤ c.toNat && c.toNat ≤ 57

/-- Decimal value of a digit string. -/
def digitsVal (l : List Char) : Nat := l.foldl (fun a c => a * 10 + (c.toNat - 48)) 0

/-- Decimal parse of the part after an optional sign: at least one
character, all digits. -/
def atoiCore (l : List Char) : Option Nat :=
  if l ≠ [] ∧ l.all isDigitChar then some (digitsVal l) else none

/-- Positive result of strconv.Atoi with the error discarded: the value,
clamped to the int64 maximum on range error. -/
def goAtoiClampPos (v : Nat) : Int := if v ≤ 2 ^ 63 - 1 then (v : Int) else 2 ^ 63 - 1

/-- Negative result of strconv.Atoi with the error discarded: the negated
value, clamped to the int64 minimum on range error. -/
def goAtoiClampNeg (v : Nat) : Int := if v ≤ 2 ^ 63 then -(v : Int) else -(2 ^ 63)

/-- Go strconv.Atoi as used by Session.clientGetKey, with the error
discarded: optional sign then decimal digits; a syntax error yields the
zero value 0, a range error yields the clamped int64 bound. -/
def goAtoi (s : String) : Int :=
  match s.data with
  | [] => 0
  | c :: rest =>
    if c = '+' then
      match atoiCore rest with
      | some v => goAtoiClampPos v
      | none => 0
    else if c = '-' then
      match atoiCore rest with
      | some v => goAtoiClampNeg v
      | none => 0
    else
      match atoiCore (c :: rest) with
      | some v => goAtoiClampPos v
      | none => 0

/-- Syntactic success of strconv.Atoi on a string. -/
def atoiParses (s : String) : Bool :=
  match s.data with
  | [] => false
  | c :: rest =>
    if c = '+' ∨ c = '-' then (atoiCore rest).isSome else (atoiCore (c :: rest)).isSome

/-- Session.loadKey (session.go): the lock string defaults to "13579" when
the lock key file cannot be read, and is the raw file contents otherwise. -/
def Session.loadKey (contents : Option String) : String :=
  match contents with
  | none => "13579"
  | some buff => buff

/-- Session.clientGetKey (session.go): strconv.Atoi of the lock string with
the error ignored, converted to uint16. -/
def Session.clientGetKey (lock : String) : Nat := (goAtoi lock % (65536 : Int)).toNat

/-- The key carried by the next outgoing packet after session start, when
the lock key file held the given contents (none when absent):
Session.transaction sets pkt.key to Session.clientGetKey of the loaded
lock string. -/
def sessionStartKey (contents : Option String) : Nat :=
  Session.clientGetKey (Session.loadKey contents)

/-- C6 (amended): at session start the key is 13579 when the lock key file
is absent; when the file exists but its contents do not parse as a decimal
integer, the discarded Atoi error leaves the parsed value 0, so the key is
0, not 13579. -/
theorem C6_lock_key (contents : String) :
    sessionStartKey none = 13579 ∧
    (atoiParses contents = false → sessionStartKey (some contents) = 0) := by
  refine ⟨by decide, fun h => ?_⟩
  have hz : goAtoi contents = 0 := by
    unfold goAtoi
    unfold atoiParses at h
    split
    · rfl
    · next c rest heq =>
      rw [heq] at h
      simp only [] at h
      by_cases hc : c = '+'
      · rw [if_pos hc]
        rw [if_pos (Or.inl hc)] at h
        cases hAC : atoiCore rest with
        | none => rfl
        | some v =>
          rw [hAC] at h
          simp at h
      · by_cases hc2 : c = '-'
        · rw [if_neg hc, if_pos hc2]
          rw [if_pos (Or.inr hc2)] at h
          cases hAC : atoiCore rest with
          | none => rfl
          | some v =>
            rw [hAC] at h
            simp at h
        · rw [if_neg hc, if_neg hc2]
          rw [if_neg (by tauto)] at h
          cases hAC : atoiCore (c :: rest) with
          | none => rfl
          | some v =>
            rw [hAC] at h
            simp at h
  unfold sessionStartKey Session.loadKey Session.clientGetKey
  rw [hz]
  decide

/-- C6 counterexample: lock file contents "x" do not parse, and the session
key becomes 0, not the claimed default 13579. -/
theorem C6_counterexample :
    sessionStartKey (some "x") = 0 ∧ sessionStartKey (some "x") ≠ 13579 := by
  refine ⟨?_, ?_⟩ <;> decide

/-- C6 witness: the default key when the lock file is absent, and the key
obtained from the unparsable contents "ab". -/
theorem C6_witness :
    sessionStartKey none = 13579 ∧ sessionStartKey (some "ab") = 0 :=
  ⟨(C6_lock_key "ab").1, (C6_lock_key "ab").2 (by decide)⟩

/-- Directory entry type sentinels (file.go). -/
def fspEntryTypeEnd : Nat := 0x00
def fspEntryTypeFile : Nat := 0x01
def fspEntryTypeDir : Nat := 0x02
def fspEntryTypeSkip : Nat := 0x2A

/-- dirEntry from file.go.  The source field Type is written type here. -/
structure dirEntry where
  Name : List Nat
  NameLen : Nat
  type : Nat
  RecordLen : Nat
  Size : Nat
  LastModify : Nat
deriving DecidableEq

/-- dir from file.go: the directory cache with its decode cursor.  dirPos
is a Go int that never goes negative on any reachable state, so it is a
Nat here; the source guard dirPos < 0 is vacuous in this model. -/
structure dir where
  dirPos : Nat
  blockSize : Nat
  dataSize : Nat
  data : List Nat
deriving DecidableEq

/-- The name scan inside dir.ReadNative: advance from index l while it is
below dataSize and the byte there is not NUL, counting the name length;
reading past the end of the data slice is a Go panic.  The first Nat
argument is fuel; dataSize + 1 units always suffice since l increases by
one per step and the loop stops at dataSize. -/
def nameScan (data : List Nat) (dataSize : Nat) : Nat → Nat → Nat → Except String Nat
  | 0, _, _ => .error "out of fuel"
  | fuel + 1, l, nameLen =>
    if l < dataSize then
      match data[l]? with
      | none => .error "panic: index out of range"
      | some b =>
        if b = 0 then .ok nameLen else nameScan data dataSize fuel (l + 1) (nameLen + 1)
    else .ok nameLen

/-- The type byte selection of dir.ReadNative: when fewer than 9 bytes
remain in the current block the record is treated as a skip, otherwise the
byte at dirPos + 8 is read (a Go panic when out of range). -/
def dirTypeByte (d : dir) : Except String Nat :=
  if d.blockSize - d.dirPos % d.blockSize < 9 then .ok fspEntryTypeSkip
  else
    match d.data[d.dirPos + 8]? with
    | none => .error "panic: index out of range"
    | some b => .ok b

/-- The loop of dir.ReadNative (file.go), with fuel: stop at the end of the
directory data; on an END record move the cursor to dataSize and loop; on a
SKIP record (or a block tail shorter than 9 bytes) move the cursor to the
next block boundary and loop; otherwise parse the 9 byte header and the NUL
terminated name, advance the cursor past the record and its padding to a
4 byte multiple of the record length, and yield the entry.  An empty name
aborts with a nil entry, cursor left just past the header.  blockSize 0
would be a Go division by zero. -/
def readNativeLoop (d : dir) : Nat → Except String (dir × Option dirEntry)
  | 0 => .error "out of fuel"
  | fuel + 1 =>
    if d.dirPos ≥ d.dataSize then .ok (d, none)
    else if d.blockSize = 0 then .error "panic: integer divide by zero"
    else
      match dirTypeByte d with
      | .error e => .error e
      | .ok t =>
        if t = fspEntryTypeEnd then readNativeLoop { d with dirPos := d.dataSize } fuel
        else if t = fspEntryTypeSkip then
          readNativeLoop { d with dirPos := (d.dirPos / d.blockSize + 1) * d.blockSize } fuel
        else
          match nameScan d.data d.dataSize (d.dataSize + 1) (d.dirPos + 9) 0 with
          | .error e => .error e
          | .ok nameLen =>
            if nameLen = 0 then .ok ({ d with dirPos := d.dirPos + 9 }, none)
            else
              if (nameLen % 65536 + 10) % 4 ≠ 0 then
                .ok ({ d with dirPos :=
                        d.dirPos + 9 + nameLen + 1 + (4 - (nameLen % 65536 + 10) % 4) },
                  some { Name := (d.data.drop (d.dirPos + 9)).take nameLen,
                         NameLen := nameLen % 65536, type := t,
                         RecordLen :=
                           (nameLen % 65536 + 10 + (4 - (nameLen % 65536 + 10) % 4)) % 65536,
                         Size := be32 (d.data.getD (d.dirPos + 4) 0) (d.data.getD (d.dirPos + 5) 0)
                           (d.data.getD (d.dirPos + 6) 0) (d.data.getD (d.dirPos + 7) 0),
                         LastModify := be32 (d.data.getD d.dirPos 0) (d.data.getD (d.dirPos + 1) 0)
                           (d.data.getD (d.dirPos + 2) 0) (d.data.getD (d.dirPos + 3) 0) })
              else
                .ok ({ d with dirPos := d.dirPos + 9 + nameLen + 1 },
                  some { Name := (d.data.drop (d.dirPos + 9)).take nameLen,
                         NameLen := nameLen % 65536, type := t,
                         RecordLen := (nameLen % 65536 + 10) % 65536,
                         Size := be32 (d.data.getD (d.dirPos + 4) 0) (d.data.getD (d.dirPos + 5) 0)
                           (d.data.getD (d.dirPos + 6) 0) (d.data.getD (d.dirPos + 7) 0),
                         LastModify := be32 (d.data.getD d.dirPos 0) (d.data.getD (d.dirPos + 1) 0)
                           (d.data.getD (d.dirPos + 2) 0) (d.data.getD (d.dirPos + 3) 0) })

/-- dir.ReadNative from file.go: a misaligned (or, in Go, negative) cursor
returns a nil entry immediately; otherwise the decode loop runs, for which
dataSize + 2 units of fuel always suffice since the cursor strictly
increases on every continue. -/
def dir.ReadNative (d : dir) : Except String (dir × Option dirEntry) :=
  if d.dirPos % 4 ≠ 0 then .ok (d, none)
  else readNativeLoop d (d.dataSize + 2)

/-- C8 (amended): provided the server chosen block size and the data size
are multiples of 4, a successful ReadNative loop step started on a 4 byte
aligned cursor yields entries whose record length is a multiple of 4 and
leaves the cursor 4 byte aligned, except that a malformed record with an
empty name returns a nil entry with the cursor advanced by the 9 header
bytes only, leaving it congruent to 1 modulo 4.  Without the block size and
data size hypotheses the skip and end transitions land the cursor off
alignment, so the claim as stated fails. -/
theorem C8_cursor_alignment (fuel : Nat) : ∀ (d d2 : dir) (e? : Option dirEntry),
    d.blockSize % 4 = 0 → d.dataSize % 4 = 0 → d.dirPos % 4 = 0 →
    readNativeLoop d fuel = .ok (d2, e?) →
    (∀ en, e? = some en → d2.dirPos % 4 = 0 ∧ en.RecordLen % 4 = 0) ∧
    (e? = none → d2.dirPos % 4 = 0 ∨ d2.dirPos % 4 = 1) := by
  have hmod4 : ∀ x : Nat, x % 65536 % 4 = x % 4 := fun x => Nat.mod_mod_of_dvd x (by norm_num)
  induction fuel with
  | zero =>
    intro d d2 e? _ _ _ hres
    rw [readNativeLoop] at hres
    exact absurd hres (by simp)
  | succ fuel ih =>
    intro d d2 e? hb hds hp hres
    rw [readNativeLoop] at hres
    by_cases h1 : d.dirPos ≥ d.dataSize
    · rw [if_pos h1] at hres
      simp only [Except.ok.injEq, Prod.mk.injEq] at hres
      obtain ⟨hd2, he⟩ := hres
      subst he
      refine ⟨fun en hen => absurd hen (by simp), fun _ => Or.inl ?_⟩
      rw [← hd2]
      exact hp
    · rw [if_neg h1] at hres
      by_cases h2 : d.blockSize = 0
      · rw [if_pos h2] at hres
        exact absurd hres (by simp)
      · rw [if_neg h2] at hres
        cases ht : dirTypeByte d with
        | error e =>
          rw [ht] at hres
          simp only [] at hres
          exact absurd hres (by simp)
        | ok t =>
          rw [ht] at hres
          simp only [] at hres
          by_cases hEnd : t = fspEntryTypeEnd
          · rw [if_pos hEnd] at hres
            exact ih _ d2 e? (by simpa using hb) (by simpa using hds) (by simpa using hds) hres
          · rw [if_neg hEnd] at hres
            by_cases hSkip : t = fspEntryTypeSkip
            · rw [if_pos hSkip] at hres
              refine ih _ d2 e? (by simpa using hb) (by simpa using hds) ?_ hres
              have hdvd : (4 : Nat) ∣ d.blockSize := Nat.dvd_of_mod_eq_zero hb
              have hdvd2 : (4 : Nat) ∣ (d.dirPos / d.blockSize + 1) * d.blockSize :=
                hdvd.mul_left _
              simpa using Nat.mod_eq_zero_of_dvd hdvd2
            · rw [if_neg hSkip] at hres
              cases hn : nameScan d.data d.dataSize (d.dataSize + 1) (d.dirPos + 9) 0 with
              | error e =>
                rw [hn] at hres
                simp only [] at hres
                exact absurd hres (by simp)
              | ok nameLen =>
                rw [hn] at hres
                simp only [] at hres
                by_cases hn0 : nameLen = 0
                · rw [if_pos hn0] at hres
                  simp only [Except.ok.injEq, Prod.mk.injEq] at hres
                  obtain ⟨hd2, he⟩ := hres
                  subst he
                  refine ⟨fun en hen => absurd hen (by simp), fun _ => Or.inr ?_⟩
                  rw [← hd2]
                  simp only []
                  omega
                · by_cases hr4 : (nameLen % 65536 + 10) % 4 ≠ 0
                  · rw [if_neg hn0, if_pos hr4] at hres
                    simp only [Except.ok.injEq, Prod.mk.injEq] at hres
                    obtain ⟨hd2, he⟩ := hres
                    refine ⟨fun en hen => ?_, fun hne => absurd (he.trans hne) (by simp)⟩
                    have hrec := he.trans hen
                    injection hrec with hrec
                    constructor
                    · rw [← hd2]
                      simp only []
                      have h4 := hmod4 nameLen
                      omega
                    · rw [← hrec]
                      simp only []
                      have h4 := hmod4 nameLen
                      have h4b := hmod4 (nameLen % 65536 + 10 + (4 - (nameLen % 65536 + 10) % 4))
                      omega
                  · rw [if_neg hn0, if_neg hr4] at hres
                    simp only [Except.ok.injEq, Prod.mk.injEq] at hres
                    obtain ⟨hd2, he⟩ := hres
                    refine ⟨fun en hen => ?_, fun hne => absurd (he.trans hne) (by simp)⟩
                    have hrec := he.trans hen
                    injection hrec with hrec
                    constructor
                    · rw [← hd2]
                      simp only []
                      have h4 := hmod4 nameLen
                      omega
                    · rw [← hrec]
                      simp only []
                      have h4 := hmod4 nameLen
                      have h4b := hmod4 (nameLen % 65536 + 10)
                      omega

/-- C8 counterexample: a directory of 13 data bytes (block size 16) whose
first record is an END marker moves the cursor to 13 in one ReadNative
step, and 13 is not a multiple of 4. -/
theorem C8_counterexample :
    dir.ReadNative ⟨0, 16, 13, List.replicate 13 0⟩
        = .ok (⟨13, 16, 13, List.replicate 13 0⟩, none) ∧
    (13 : Nat) % 4 ≠ 0 := by decide

/-- C8 witness: one aligned step over a single one-letter file record
yields a record length of 12 and a cursor of 12, both multiples of 4. -/
theorem C8_witness :
    (∀ en, (some (⟨[97], 1, 1, 12, 0, 0⟩ : dirEntry) : Option dirEntry) = some en →
      (⟨12, 16, 16, [0, 0, 0, 0, 0, 0, 0, 0, 1, 97, 0, 0, 0, 0, 0, 0]⟩ : dir).dirPos % 4 = 0 ∧
        en.RecordLen % 4 = 0) ∧
    ((some (⟨[97], 1, 1, 12, 0, 0⟩ : dirEntry) : Option dirEntry) = none →
      (⟨12, 16, 16, [0, 0, 0, 0, 0, 0, 0, 0, 1, 97, 0, 0, 0, 0, 0, 0]⟩ : dir).dirPos % 4 = 0 ∨
        (⟨12, 16, 16, [0, 0, 0, 0, 0, 0, 0, 0, 1, 97, 0, 0, 0, 0, 0, 0]⟩ : dir).dirPos % 4 = 1) :=
  C8_cursor_alignment 1 ⟨0, 16, 16, [0, 0, 0, 0, 0, 0, 0, 0, 1, 97, 0, 0, 0, 0, 0, 0]⟩
    ⟨12, 16, 16, [0, 0, 0, 0, 0, 0, 0, 0, 1, 97, 0, 0, 0, 0, 0, 0]⟩
    (some ⟨[97], 1, 1, 12, 0, 0⟩) (by decide) (by decide) (by decide) (by decide)

/-- Go copy into a sub-slice: copy(dst[off:], src).  The slice expression
dst[off:] defaults its high bound to len(dst), and Go requires
low <= high, so the program panics when off > len(dst); an offset equal
to the length is legal and yields an empty window.  Otherwise the copy
writes min(len(dst) - off, len(src)) bytes of src at offset off and
leaves the rest of dst unchanged. -/
def goCopyInto (dst : List Nat) (off : Nat) (src : List Nat) : Except String (List Nat) :=
  if dst.length < off then .error "panic: slice bounds out of range"
  else
    .ok (dst.take off ++ src.take (min (dst.length - off) src.length) ++
      dst.drop (off + min (dst.length - off) src.length))

theorem goCopyInto_ok (dst : List Nat) (off : Nat) (src : List Nat) (h : off ≤ dst.length) :
    goCopyInto dst off src
      = .ok (dst.take off ++ src.take (min (dst.length - off) src.length) ++
        dst.drop (off + min (dst.length - off) src.length)) ∧
    (dst.take off ++ src.take (min (dst.length - off) src.length) ++
      dst.drop (off + min (dst.length - off) src.length)).length = dst.length := by
  constructor
  · unfold goCopyInto
    rw [if_neg (by omega)]
  · simp only [List.length_append, List.length_take, List.length_drop]
    omega

/-- File from file.go; password stands for the password of the
back-referenced session s. -/
structure File where
  name : List Nat
  password : List Nat
  writing : Bool
  eof : Bool
  err : Nat
  buffPos : Nat
  pos : Nat
  out : fspPacket
deriving DecidableEq

/-- File.Flush from file.go, with the transaction engine abstracted as the
environment tr: a read handle errors, an EOF or empty buffer is a no-op,
otherwise one UPLOAD transaction is sent with len = buffPos and
pos = the file offset; on failure the sticky error flag is latched, on
success the buffer resets and the offset advances.  The result is the list
of packets passed to the transaction, the updated handle, and the error. -/
def File.Flush (f : File) (tr : fspPacket → Except String fspPacket) :
    List fspPacket × File × Except String Unit :=
  if f.writing = false then ([], f, .error "bad file")
  else if f.eof ∨ f.buffPos = 0 then ([], f, .ok ())
  else
    let out := { f.out with pos := f.pos, len := f.buffPos % 65536 }
    match tr out with
    | .error e => ([out], { f with out := out, err := 1 }, .error e)
    | .ok _ =>
      ([out], { f with out := out, buffPos := 0, pos := (f.pos + out.len) % 2 ^ 32 }, .ok ())

/-- The loop of File.Write from file.go, with fuel: when the buffer is full
send one UPLOAD transaction (latching the error flag and stopping on
failure), then copy the next chunk of the input into the buffer with
copy(f.out.buf[f.buffPos:], ...) — which panics, aborting the loop
without touching the error flag, when buffPos exceeds len(out.buf) —
stopping when the input is exhausted.  Each iteration either stops or
consumes at least one input byte, so total + 2 units of fuel always
suffice. -/
def File.writeLoop (tr : fspPacket → Except String fspPacket) (buff : List Nat) :
    Nat → File → Nat → Nat → List fspPacket × File × Except String Unit
  | 0, f, _, _ => ([], f, .error "out of fuel")
  | fuel + 1, f, total, pos =>
    if f.buffPos ≥ FSPSpace then
      let out := { f.out with pos := f.pos }
      match tr out with
      | .error e => ([out], { f with out := out, err := 1 }, .error e)
      | .ok _ =>
        let f2 := { f with out := out, buffPos := 0, pos := (f.pos + out.len) % 2 ^ 32 }
        if FSPSpace - f2.buffPos ≤ total then
          match goCopyInto f2.out.buf f2.buffPos
              ((buff.drop pos).take (FSPSpace - f2.buffPos)) with
          | .error e => ([out], f2, .error e)
          | .ok buf2 =>
            let f3 := { f2 with out := { f2.out with buf := buf2 }, buffPos := FSPSpace }
            let r := File.writeLoop tr buff fuel f3 (total - (FSPSpace - f2.buffPos))
              (pos + (FSPSpace - f2.buffPos))
            (out :: r.1, r.2)
        else
          match goCopyInto f2.out.buf f2.buffPos ((buff.drop pos).take total) with
          | .error e => ([out], f2, .error e)
          | .ok buf2 =>
            ([out], { f2 with out := { f2.out with buf := buf2 },
                              buffPos := f2.buffPos + total }, .ok ())
    else
      if FSPSpace - f.buffPos ≤ total then
        match goCopyInto f.out.buf f.buffPos
            ((buff.drop pos).take (FSPSpace - f.buffPos)) with
        | .error e => ([], f, .error e)
        | .ok buf2 =>
          let f3 := { f with out := { f.out with buf := buf2 }, buffPos := FSPSpace }
          File.writeLoop tr buff fuel f3 (total - (FSPSpace - f.buffPos))
            (pos + (FSPSpace - f.buffPos))
      else
        match goCopyInto f.out.buf f.buffPos ((buff.drop pos).take total) with
        | .error e => ([], f, .error e)
        | .ok buf2 =>
          ([], { f with out := { f.out with buf := buf2 },
                        buffPos := f.buffPos + total }, .ok ())

/-- File.Write from file.go: a no-op on EOF or a latched error flag,
otherwise allocate the 14708 byte buffer if missing, set out.len to 14708
and run the write loop over the input. -/
def File.Write (f : File) (buff : List Nat) (tr : fspPacket → Except String fspPacket) :
    List fspPacket × File × Except String Unit :=
  if f.eof ∨ f.err ≠ 0 then ([], f, .ok ())
  else
    let f0 := if f.out.buf.length = 0 then
      { f with out := { f.out with buf := List.replicate FSPSpace 0 } } else f
    let f1 := { f0 with out := { f0.out with len := FSPSpace } }
    File.writeLoop tr buff (buff.length + 2) f1 buff.length 0

/-- The INSTALL packet File.install builds (file.go): cmd INSTALL, region A
the filename plus password payload, and for a nonzero timestamp region B
the 4 byte big endian timestamp with xlen = 4 and pos = 4. -/
def File.installBuilt (f : File) (timeStamp : Nat) : Except String fspPacket :=
  match ({ fspPacket.zero with cmd := FSPCommandInstall } : fspPacket).buildFileName
      f.name f.password with
  | .error e => .error e
  | .ok out =>
    if timeStamp ≠ 0 then
      .ok { out with buf := out.buf ++ be32Bytes (timeStamp % 2 ^ 32), xlen := 4, pos := 4 }
    else .ok out

/-- The packet File.install actually passes to the transaction: the source
transacts f.out — the stale upload template — not the freshly built out
packet, which is discarded. -/
def File.installSent (f : File) (timeStamp : Nat) : Except String fspPacket :=
  (File.installBuilt f timeStamp).map (fun _ => f.out)

/-- File.install from file.go with the transaction engine abstracted:
build the INSTALL packet (an overlong filename aborts before any send),
then run one transaction on the packet installSent selects. -/
def File.install (f : File) (timeStamp : Nat) (tr : fspPacket → Except String fspPacket) :
    List fspPacket × Except String Unit :=
  match File.installSent f timeStamp with
  | .error e => ([], .error e)
  | .ok p =>
    match tr p with
    | .error e => ([p], .error e)
    | .ok _ => ([p], .ok ())

/-- File.Close from file.go: for a write handle, Flush then install with
the current timestamp; the error flag latched by earlier writes is never
consulted. -/
def File.Close (f : File) (timeStamp : Nat) (tr : fspPacket → Except String fspPacket) :
    List fspPacket × Except String Unit :=
  if f.writing then
    match File.Flush f tr with
    | (sent, _, .error e) => (sent, .error e)
    | (sent, f1, .ok _) =>
      let r := File.install f1 timeStamp tr
      (sent ++ r.1, r.2)
  else ([], .ok ())

/-- Session.Rename from fsp.go: build the old name plus password payload,
then write the new name with copy(out.buf[out.len:], to) — offset out.len
equals len(out.buf), a legal zero-length window, so the new name's bytes
are silently lost; with a password set, after appending the newline the
second copy targets offset out.len + xlen, which exceeds len(out.buf) for
every non-empty new name, so the program panics there; finally append the
NUL and set xlen to the intended region B length and pos = xlen. -/
def Session.Rename (password fromName toName : List Nat) : Except String fspPacket :=
  match fspPacket.zero.buildFileName fromName password with
  | .error e => .error e
  | .ok out0 =>
    if toName.length + out0.len > FSPSpace then .error "file name too long"
    else
      match goCopyInto out0.buf out0.len toName with
      | .error e => .error e
      | .ok buf1 =>
        let out1 := { out0 with buf := buf1, xlen := toName.length % 65536 }
        match (if password ≠ [] then
                 if out1.len + out1.xlen > FSPSpace then
                   Except.error "file name too long"
                 else
                   match goCopyInto (out1.buf ++ [10]) (out1.len + (out1.xlen + 1)) password with
                   | .error e => Except.error e
                   | .ok buf2 =>
                     Except.ok { out1 with buf := buf2,
                                           xlen := out1.xlen + 1 + password.length }
               else Except.ok out1 : Except String fspPacket) with
        | .error e => .error e
        | .ok out3 =>
          .ok { out3 with buf := out3.buf ++ [0], xlen := out3.xlen + 1,
                          cmd := FSPCommandRename, pos := out3.xlen + 1 }

/-- The upload template that openFile gives a write handle: command UPLOAD
in an otherwise zero packet. -/
def uploadTemplateC4 : fspPacket := { fspPacket.zero with cmd := FSPCommandUpload }

/-- A write handle on file "a" with an empty password and an empty buffer. -/
def fileC4 : File := ⟨[97], [], true, false, 0, 0, 0, uploadTemplateC4⟩

/-- A transaction environment that acknowledges every packet. -/
def trOkC4 : fspPacket → Except String fspPacket := fun _ => .ok fspPacket.zero

/-- C4: on close of a write handle the install step passes f.out — the
stale UPLOAD template — to the transaction instead of the INSTALL packet
it just built: the only datagram of the install step carries cmd UPLOAD
(0x43) and none of the claimed INSTALL fields, while the packet actually
built, with cmd INSTALL, region A the filename payload and region B the
4 byte big endian timestamp with xlen 4 and pos 4, is discarded. -/
theorem C4_close_sends_stale_upload :
    File.Close fileC4 1 trOkC4 = ([uploadTemplateC4], .ok ()) ∧
    uploadTemplateC4.cmd = FSPCommandUpload ∧
    FSPCommandUpload ≠ FSPCommandInstall ∧
    File.installBuilt fileC4 1
      = .ok ⟨FSPCommandInstall, 0, 0, 0, 2, 4, 4, [97, 0, 0, 0, 0, 1]⟩ ∧
    (⟨FSPCommandInstall, 0, 0, 0, 2, 4, 4, [97, 0, 0, 0, 0, 1]⟩ : fspPacket)
      ≠ uploadTemplateC4 := by decide

/-- C5: Rename("a", "b") with no password produces the packet whose buffer
is 61 00 00: the new name byte 62 was copied into a zero length slice
window and lost, so with len 2 and xlen 2 the bytes held in the buffer
after region A are a single NUL instead of the claimed "b" NUL region B;
and with password "p" the second copy targets offset out.len + xlen = 5
in the 4 byte buffer, a Go slice-bounds panic. -/
theorem C5_rename_drops_new_name :
    Session.Rename [] [97] [98] = .ok ⟨FSPCommandRename, 0, 0, 0, 2, 2, 2, [97, 0, 0]⟩ ∧
    (⟨FSPCommandRename, 0, 0, 0, 2, 2, 2, [97, 0, 0]⟩ : fspPacket).buf.drop 2 = [0] ∧
    98 ∉ (⟨FSPCommandRename, 0, 0, 0, 2, 2, 2, [97, 0, 0]⟩ : fspPacket).buf ∧
    Session.Rename [112] [97] [98] = .error "panic: slice bounds out of range" := by decide

theorem writeLoop_err_latches (tr : fspPacket → Except String fspPacket) (buff : List Nat) :
    ∀ (fuel : Nat) (f : File) (total pos : Nat), total < fuel →
      f.out.buf.length = FSPSpace → f.buffPos ≤ FSPSpace →
      ∀ e, (File.writeLoop tr buff fuel f total pos).2.2 = .error e →
      (File.writeLoop tr buff fuel f total pos).2.1.err = 1 := by
  have hFSP : FSPSpace = 14708 := rfl
  intro fuel
  induction fuel with
  | zero =>
    intro f total pos h hlen hbp e hE
    omega
  | succ fuel ih =>
    intro f total pos h hlen hbp e hE
    rw [File.writeLoop] at hE ⊢
    by_cases hfull : f.buffPos ≥ FSPSpace
    · rw [if_pos hfull] at hE ⊢
      simp only [] at hE ⊢
      split at hE
      · rfl
      · split at hE
        · rename_i hfree
          rw [if_pos hfree]
          rw [(goCopyInto_ok f.out.buf 0 ((buff.drop pos).take (FSPSpace - 0))
            (Nat.zero_le _)).1] at hE ⊢
          simp only [] at hE ⊢
          refine ih _ _ _ (by omega) ?_ ?_ e hE
          · exact (goCopyInto_ok f.out.buf 0 ((buff.drop pos).take (FSPSpace - 0))
              (Nat.zero_le _)).2.trans hlen
          · exact Nat.le_refl _
        · rename_i hfree
          rw [if_neg hfree]
          rw [(goCopyInto_ok f.out.buf 0 ((buff.drop pos).take total)
            (Nat.zero_le _)).1] at hE
          simp only [] at hE
          simp at hE
    · rw [if_neg hfull] at hE ⊢
      simp only [] at hE ⊢
      split at hE
      · rename_i hfree
        rw [if_pos hfree]
        rw [(goCopyInto_ok f.out.buf f.buffPos ((buff.drop pos).take (FSPSpace - f.buffPos))
          (by omega)).1] at hE ⊢
        simp only [] at hE ⊢
        refine ih _ _ _ (by omega) ?_ ?_ e hE
        · exact (goCopyInto_ok f.out.buf f.buffPos ((buff.drop pos).take (FSPSpace - f.buffPos))
            (by omega)).2.trans hlen
        · exact Nat.le_refl _
      · rename_i hfree
        rw [if_neg hfree]
        rw [(goCopyInto_ok f.out.buf f.buffPos ((buff.drop pos).take total)
          (by omega)).1] at hE
        simp only [] at hE
        simp at hE

theorem install_ok_of_tr_ok (f : File) (ts : Nat) (tr : fspPacket → Except String fspPacket)
    (htr : ∀ q, exceptOk (tr q) = true)
    (hib : exceptOk (File.installBuilt f ts) = true) :
    (File.install f ts tr).2 = .ok () := by
  unfold File.install File.installSent
  cases hib2 : File.installBuilt f ts with
  | error e0 =>
    rw [hib2] at hib
    simp [exceptOk] at hib
  | ok q =>
    simp only [Except.map]
    have h2 := htr f.out
    cases htr2 : tr f.out with
    | error e0 =>
      rw [htr2] at h2
      simp [exceptOk] at h2
    | ok rr =>
      rfl

/-- C9 (amended): a latched error flag makes Write a no-op that sends no
transaction, changes no state and reports no error; on a handle whose
upload buffer is not yet allocated or is the allocated 14708 byte buffer
and whose fill cursor is within it (every state the write path produces),
a transaction failure inside Write latches the flag, as does one inside
Flush; but close() never consults the flag — it re-runs Flush and the
install transaction, and when those succeed close() returns no error, so
the latched error is not propagated. -/
theorem C9_sticky_error :
    (∀ (f : File) (buff : List Nat) (tr : fspPacket → Except String fspPacket),
      f.err ≠ 0 → File.Write f buff tr = ([], f, .ok ())) ∧
    (∀ (f : File) (buff : List Nat) (tr : fspPacket → Except String fspPacket) (e : String),
      f.out.buf.length = 0 ∨ f.out.buf.length = FSPSpace → f.buffPos ≤ FSPSpace →
      (File.Write f buff tr).2.2 = .error e → (File.Write f buff tr).2.1.err = 1) ∧
    (∀ (f : File) (tr : fspPacket → Except String fspPacket) (e : String),
      f.writing = true → f.eof = false → f.buffPos ≠ 0 →
      tr { f.out with pos := f.pos, len := f.buffPos % 65536 } = .error e →
      (File.Flush f tr).2.2 = .error e ∧ (File.Flush f tr).2.1.err = 1) ∧
    (∀ (f : File) (ts : Nat) (tr : fspPacket → Except String fspPacket),
      (∀ q, exceptOk (tr q) = true) → exceptOk (File.installBuilt f ts) = true →
      (File.Close f ts tr).2 = .ok ()) := by
  refine ⟨fun f buff tr h => ?_, fun f buff tr e hlen hbp hE => ?_,
    fun f tr e hw he hbp htr => ?_, fun f ts tr htr hib => ?_⟩
  · unfold File.Write
    rw [if_pos (Or.inr h)]
  · unfold File.Write at hE ⊢
    by_cases h0 : f.eof ∨ f.err ≠ 0
    · rw [if_pos h0] at hE
      exact absurd hE (by simp)
    · rw [if_neg h0] at hE ⊢
      simp only [] at hE ⊢
      refine writeLoop_err_latches tr buff _ _ _ _ (by omega) ?_ ?_ e hE
      · rcases hlen with hz | hs
        · rw [if_pos hz]
          simp [List.length_replicate]
        · rw [if_neg (by simp [hs, FSPSpace])]
          exact hs
      · by_cases hz : f.out.buf.length = 0
        · rw [if_pos hz]
          exact hbp
        · rw [if_neg hz]
          exact hbp
  · unfold File.Flush
    rw [if_neg (by simp [hw]), if_neg (by simp [he, hbp])]
    simp only [] at htr ⊢
    rw [htr]
    exact ⟨rfl, rfl⟩
  · unfold File.Close
    by_cases hw : f.writing
    · rw [if_pos hw]
      unfold File.Flush
      rw [if_neg (by simp [hw])]
      by_cases h0 : f.eof ∨ f.buffPos = 0
      · rw [if_pos h0]
        simp only []
        exact install_ok_of_tr_ok f ts tr htr hib
      · rw [if_neg h0]
        rcases htr2 : tr { f.out with pos := f.pos, len := f.buffPos % 65536 } with e0 | rr
        · exfalso
          have h3 := htr { f.out with pos := f.pos, len := f.buffPos % 65536 }
          rw [htr2] at h3
          simp [exceptOk] at h3
        · simp only [] at htr2 ⊢
          rw [htr2]
          simp only []
          exact install_ok_of_tr_ok _ ts tr htr hib
    · rw [if_neg hw]

/-- An upload template whose buffer Write has not yet allocated: command
UPLOAD in an otherwise zero packet, as openFile leaves a write handle. -/
def emptyUploadC9 : fspPacket := { fspPacket.zero with cmd := FSPCommandUpload }

/-- An upload template whose 14708 byte buffer has been allocated and
filled by earlier writes, with out.len already set to 14708 by Write. -/
def fullUploadC9 : fspPacket :=
  { fspPacket.zero with cmd := FSPCommandUpload, len := FSPSpace,
                        buf := List.replicate FSPSpace 0 }

/-- A write handle with the error flag already latched at a full buffer,
as a failed flush-on-full leaves it. -/
def fileC9w : File := ⟨[97], [], true, false, 1, 14708, 0, fullUploadC9⟩

/-- A write handle at a full buffer position with no error and the buffer
not yet allocated. -/
def fileC9full : File := ⟨[97], [], true, false, 0, 14708, 0, emptyUploadC9⟩

/-- A write handle with three buffered bytes and no error. -/
def fileC9flush : File := ⟨[97], [], true, false, 0, 3, 0, fullUploadC9⟩

/-- A write handle with the error flag latched and the allocated buffer
full, as a failed flush-on-full leaves it. -/
def fileC9close : File := ⟨[97], [], true, false, 1, 14708, 0, fullUploadC9⟩

/-- A transaction environment that acknowledges every packet. -/
def trOkC9 : fspPacket → Except String fspPacket := fun _ => .ok fspPacket.zero

/-- A transaction environment in which every transaction fails. -/
def trErrC9 : fspPacket → Except String fspPacket := fun _ => .error "boom"

/-- C9 counterexample: a write handle holding the allocated 14708 byte
upload buffer, full, with the sticky error flag latched by the failed
flush, closes without reporting any error once the retried flush and
install transactions succeed, so close() does not propagate the latched
error. -/
theorem C9_counterexample :
    fileC9close.err ≠ 0 ∧ fileC9close.writing = true ∧
    (File.Close fileC9close 1 trOkC9).2 = .ok () := by decide

/-- C9 witness: the no-op write on a latched handle, the latch from a
failed write and from a failed flush, and the silent close of a latched
handle. -/
theorem C9_witness :
    File.Write fileC9w [5] trOkC9 = ([], fileC9w, .ok ()) ∧
    (File.Write fileC9full [] trErrC9).2.1.err = 1 ∧
    ((File.Flush fileC9flush trErrC9).2.2 = .error "boom" ∧
      (File.Flush fileC9flush trErrC9).2.1.err = 1) ∧
    (File.Close fileC9w 1 trOkC9).2 = .ok () :=
  ⟨C9_sticky_error.1 fileC9w [5] trOkC9 (by decide),
   C9_sticky_error.2.1 fileC9full [] trErrC9 "boom" (Or.inl rfl) (by decide) (by decide),
   C9_sticky_error.2.2.1 fileC9flush trErrC9 "boom" (by decide) (by decide) (by decide)
     (by decide),
   C9_sticky_error.2.2.2 fileC9w 1 trOkC9 (fun _ => rfl) (by decide)⟩

end FSP
